import Mathlib

/-!
Verification of the porter control-plane dispatcher (`porter/controllers.py`,
`porter/interfaces.py`): the action registry, the validate → invoke → serialize
dispatch pipeline, web request normalization, the exception-to-status taxonomy,
and the CLI cleanup hook.

Python dictionaries are embedded as ordered association lists with in-place
overwrite on key collision (`dictSet` / `dictUpdate`), exceptions as an explicit
error type threaded through `Except`, and the Flask/emitter layer (which lives
outside `porter/controllers.py`) is modelled from the spec where noted.
-/

namespace Porter

/-- JSON-like Python values flowing through the dispatcher. -/
inductive Value where
  | str (s : String)
  | num (n : Int)
  | bool (b : Bool)
  | null
  | list (xs : List Value)
  | obj (fields : List (String × Value))

/-- A Python dict with string keys: an ordered association list.
Well-formed dicts have no duplicate keys; operations below implement
Python's in-place-overwrite semantics. -/
abbrev Dict := List (String × Value)

/-- `d[k] = v` in Python: replace the value at `k` in place (keeping insertion
order) or append `(k, v)` when `k` is absent. -/
def dictSet (d : Dict) (k : String) (v : Value) : Dict :=
  match d with
  | [] => [(k, v)]
  | (k₀, v₀) :: rest =>
      if k₀ = k then (k, v) :: rest else (k₀, v₀) :: dictSet rest k v

/-- `d.update(other)` in Python: fold `dictSet` over `other`, so later sources
overwrite earlier ones key by key. -/
def dictUpdate (d other : Dict) : Dict :=
  other.foldl (fun acc p => dictSet acc p.1 p.2) d

/-- `d.get(k)` in Python: value at the first occurrence of `k`. -/
def dictGet (d : Dict) (k : String) : Option Value :=
  match d with
  | [] => none
  | (k₀, v₀) :: rest => if k₀ = k then some v₀ else dictGet rest k

/-- Value at the last occurrence of `k` (coincides with `dictGet` on
well-formed dicts; this is what `dictUpdate` makes win). -/
def dictGetLast (d : Dict) (k : String) : Option Value :=
  match d with
  | [] => none
  | (k₀, v₀) :: rest =>
      match dictGetLast rest k with
      | some w => some w
      | none => if k₀ = k then some v₀ else none

/-- The keys of a dict, in order. -/
def dictKeys (d : Dict) : List String := d.map Prod.fst

/-- Python exceptions that can cross the dispatcher, by class.
`valueError`, `typeError`, `jsonDecodeError` and `methodNotFound` are the
classes named in `WebController.handle_request`'s `_400_exceptions` tuple;
`workerPoolException` is `nucypher.utilities.concurrency.WorkerPoolException`
carrying its `failures` mapping (input value paired with `str` of the recorded
error); `attributeError` arises from attribute access on objects lacking the
attribute; `otherError` stands for any remaining exception class.

Modelled from the spec for the classes defined outside `src/`:
`WorkerPoolException` and `MethodNotFound` are distinct from the
`ValueError`/`TypeError` families, and schema validation failures
(`validationError`) fall in the 400 class (§4.4 taxonomy row one:
"validation failure → 400", confirmed by the repository's tests where bad
input yields 400). -/
inductive PyError where
  | valueError (msg : String)
  | typeError (msg : String)
  | jsonDecodeError (msg : String)
  | methodNotFound (msg : String)
  | validationError (msg : String)
  | workerPoolException (msg : String) (failures : List (Value × String))
  | attributeError (msg : String)
  | otherError (msg : String)

/-- Membership in the `_400_exceptions` tuple
`(ValueError, TypeError, JSONDecodeError, self.emitter.MethodNotFound)` of
`WebController.handle_request` (schema validation errors are in the
`ValueError` family, see `PyError`). -/
def is400Exception : PyError → Bool
  | .valueError _ => true
  | .typeError _ => true
  | .jsonDecodeError _ => true
  | .methodNotFound _ => true
  | .validationError _ => true
  | _ => false

/-- `str(e)`: the message a Python exception renders to. -/
def errString : PyError → String
  | .valueError msg => msg
  | .typeError msg => msg
  | .jsonDecodeError msg => msg
  | .methodNotFound msg => msg
  | .validationError msg => msg
  | .workerPoolException msg _ => msg
  | .attributeError msg => msg
  | .otherError msg => msg

/-- A marshmallow-style schema attached to an interface method:
`load` validates a raw parameter dict into the typed keyword-argument dict
handed to the method, `dump` serializes the method's return value to a
JSON-compatible primitive. -/
structure Schema where
  load : Dict → Except PyError Dict
  dump : Value → Value

/-- A method of the interface object as `inspect.getmembers` sees it:
it may carry a `_schema` attribute (set by `attach_schema`), and calling it
with the typed keyword arguments either returns a domain result or raises. -/
structure InterfaceMethod where
  schemaAttr : Option Schema
  run : Dict → Except PyError Value

/-- The interface object: its methods by name
(`inspect.getmembers(self.interface, predicate=inspect.ismethod)`). -/
structure Interface where
  methods : List (String × InterfaceMethod)

/-- `getattr(self.interface, action, None)`. -/
def getMethod (iface : Interface) (name : String) : Option InterfaceMethod :=
  (iface.methods.find? (fun p => p.1 = name)).map Prod.snd

/-- `InterfaceControlServer._get_interfaces`: the methods of the interface
that carry a `_schema` attribute. -/
def getInterfaces (iface : Interface) : List (String × InterfaceMethod) :=
  iface.methods.filter (fun p => p.2.schemaAttr.isSome)

/-- `ControllerBase._perform_action`: resolve the method with
`getattr(self.interface, action, None)`, read its `_schema` attribute
(raising `AttributeError` when the method is missing or carries no schema),
validate the request with `serializer.load`, invoke `method(**params)`, and
serialize the result with `serializer.dump`.  `request or {}` replaces a
missing request with the empty dict. -/
def performAction (iface : Interface) (action : String) (request : Option Dict) :
    Except PyError Value :=
  let request := request.getD []
  match getMethod iface action with
  | none =>
      Except.error (.attributeError "NoneType object has no attribute _schema")
  | some method =>
      match method.schemaAttr with
      | none =>
          Except.error (.attributeError "method object has no attribute _schema")
      | some serializer => do
          let params ← serializer.load request
          let response ← method.run params
          Except.ok (serializer.dump response)

/-! ## Web transport (`WebController`) -/

/-- An incoming HTTP request as `WebController.handle_request` reads it.
`data` is `control_request.data`: `none` models an empty/falsy body, and a
nonempty body is represented by the outcome of `json.loads` on it (the
external JSON parser) — either the parsed dict or a `JSONDecodeError`
message.  `args` is `control_request.args` when the attribute exists
(the query-string parameters), `none` when it does not. -/
structure ControlRequest where
  data : Option (Except String Dict)
  args : Option Dict

/-- The request-normalization prefix of `WebController.handle_request`:
`request_body = json.loads(request_data) if request_data else {}`, then
`request_body.update(control_request.args)` when the attribute exists, then
`request_body.update(kwargs)`. -/
def normalizedRequestBody (controlRequest : ControlRequest) (kwargs : Dict) :
    Except PyError Dict := do
  let requestBody ← match controlRequest.data with
    | none => Except.ok ([] : Dict)
    | some (.ok d) => Except.ok d
    | some (.error msg) => Except.error (.jsonDecodeError msg)
  let requestBody := match controlRequest.args with
    | some queryArgs => dictUpdate requestBody queryArgs
    | none => requestBody
  Except.ok (dictUpdate requestBody kwargs)

/-- The observable outcome of `WebController.handle_request`: either an HTTP
response (status code and JSON body) or an exception re-raised out of the
handler (the `raise` under `crash_on_error`, or an uncaught exception
class — the `except` clauses catch everything, so only the `raise`
statements produce this). -/
inductive WebOutcome where
  | response (status : Nat) (body : Value)
  | raised (e : PyError)

/-- `WebController` state relevant to dispatch: the interface behind the
registry and the `crash_on_error` flag. -/
structure WebController where
  iface : Interface
  crashOnError : Bool

/-- Modelled from the spec: `WebEmitter` (`porter/emitters.py`) is not under
`src/`.  §4.4/§7: a converted exception is rendered as the ErrorEnvelope
`{failure_message: str(e)}` with the branch's status code, and stack traces
never leak into the body. -/
def errorBody (e : PyError) : Value :=
  .obj [("failure_message", .str (errString e))]

/-- Modelled from the spec: `WebEmitter.respond` (`porter/emitters.py`) is not
under `src/`.  §3 SuccessEnvelope: a 200 response carries
`{result: <serialized DomainResult>}` (the repository's tests read
`response_data[result]`). -/
def respondBody (result : Value) : Value :=
  .obj [("result", result)]

/-- `WebController.json_response_from_worker_pool_exception`: always a
`failure_message` from `str(exception)`; when `exception.failures` is
non-empty, also a `failures` list with one `{value, error}` entry per mapping
item, in mapping order, the error rendered with `str`. -/
def json_response_from_worker_pool_exception
    (msg : String) (failures : List (Value × String)) : Value :=
  if failures.isEmpty then
    .obj [("failure_message", .str msg)]
  else
    .obj [("failure_message", .str msg),
          ("failures", .list (failures.map fun p =>
            .obj [("value", p.1), ("error", .str p.2)]))]

/-- The `try` block of `WebController.handle_request`: normalize the request
body, raise `MethodNotFound` when `method_name not in self._get_interfaces()`,
otherwise run `self._perform_action(action=method_name, request=request_body)`. -/
def webTryBlock (iface : Interface) (methodName : String)
    (controlRequest : ControlRequest) (kwargs : Dict) : Except PyError Value := do
  let requestBody ← normalizedRequestBody controlRequest kwargs
  if (getInterfaces iface).all (fun p => p.1 ≠ methodName) then
    Except.error (.methodNotFound ("No method called " ++ methodName))
  else
    performAction iface methodName (some requestBody)

/-- `WebController.handle_request`: the `try` block, then the exception
taxonomy in clause order — the `_400_exceptions` tuple converts to a 400
response; `WorkerPoolException` re-raises under `crash_on_error` and
otherwise converts to a 404 response with the aggregated-failure body; any
other exception re-raises under `crash_on_error` and otherwise converts to a
500 response; the success path responds 200 with the serialized result. -/
def handleRequest (ctrl : WebController) (methodName : String)
    (controlRequest : ControlRequest) (kwargs : Dict) : WebOutcome :=
  match webTryBlock ctrl.iface methodName controlRequest kwargs with
  | .ok response => .response 200 (respondBody response)
  | .error e =>
      if is400Exception e then
        .response 400 (errorBody e)
      else
        match e with
        | .workerPoolException msg failures =>
            if ctrl.crashOnError then
              .raised (.workerPoolException msg failures)
            else
              .response 404 (json_response_from_worker_pool_exception msg failures)
        | e =>
            if ctrl.crashOnError then .raised e else .response 500 (errorBody e)

/-! ## Dynamic method binding at server construction
(`InterfaceControlServer.__init__`) -/

/-- `setattr(self, name, wrapper)`: bind `name` on the controller.  The bound
attribute set is modelled by the list of bound names, since every wrapper is
the same `handle_request`-forwarding closure for its name. -/
def setAttr (bound : List String) (name : String) : List String :=
  if name ∈ bound then bound else bound ++ [name]

/-- The constructor loop of `InterfaceControlServer.__init__`: for every name
in `self._get_interfaces().keys()`, `set_method(method_name)` is called twice,
each call a `setattr` of the forwarding wrapper under that name. -/
def serverInit (iface : Interface) : List String :=
  (getInterfaces iface).foldl (fun acc p => setAttr (setAttr acc p.1) p.1) []

/-- One `set_method` pass over the registry, starting from an arbitrary
already-bound attribute set (used to express re-derivation). -/
def bindInterfaceMethods (bound : List String) (iface : Interface) : List String :=
  (getInterfaces iface).foldl (fun acc p => setAttr acc p.1) bound

/-! ## CLI transport (`CLIController` / `PorterCLIController`) -/

/-- `PorterCLIController._perform_action`: run
`super()._perform_action(*args, **kwargs)` inside `try`, with a `finally`
block that always calls `self.interface.implementer.disenchant()` — once on
the return path and once before a raised exception propagates.  The
implementer's cleanup hook is modelled by its call counter. -/
def porterPerformAction (iface : Interface) (action : String)
    (request : Option Dict) (disenchantCount : Nat) :
    Except PyError Value × Nat :=
  match performAction iface action request with
  | .ok responseData => (.ok responseData, disenchantCount + 1)
  | .error e => (.error e, disenchantCount + 1)

/-- `CLIController.handle_request` as inherited by `PorterCLIController`:
`self._perform_action(action=method_name, request=request)` with no
surrounding `except` — the response is emitted and returned on success, and
any exception propagates out of the transport unhandled. -/
def cliHandleRequest (iface : Interface) (methodName : String)
    (request : Option Dict) (disenchantCount : Nat) :
    Except PyError Value × Nat :=
  match porterPerformAction iface methodName (some (request.getD [])) disenchantCount with
  | (.ok response, c) => (.ok response, c)
  | (.error e, c) => (.error e, c)

/-! ## Spec-modelled porter schemas -/

/-- The field layout of a schema: which parameter names it declares and which
of those are required. -/
structure FieldSpec where
  declared : List String
  required : List String

/-- Modelled from the spec: `porter/schema.py` is not under `src/`.  §4.2:
validation "fails with `ValidationError` on missing/malformed/unexpected
fields" — a load rejects a raw map missing a required field or containing an
undeclared field, and otherwise passes the map through as the typed keyword
arguments. -/
def specSchemaLoad (fs : FieldSpec) (raw : Dict) : Except PyError Dict :=
  if fs.required.all (fun f => (dictGet raw f).isSome) = false then
    Except.error (.validationError "missing required field")
  else if raw.all (fun p => p.1 ∈ fs.declared) = false then
    Except.error (.validationError "unknown field")
  else
    Except.ok raw

/-! ## Dictionary lemmas -/

theorem dictGet_dictSet (d : Dict) (k : String) (v : Value) (q : String) :
    dictGet (dictSet d k v) q = if q = k then some v else dictGet d q := by
  induction d with
  | nil =>
      by_cases h : q = k
      · subst h; simp [dictSet, dictGet]
      · simp [dictSet, dictGet, h, Ne.symm h]
  | cons p rest ih =>
      obtain ⟨k₀, v₀⟩ := p
      by_cases hk : k₀ = k
      · subst hk
        by_cases hq : q = k₀
        · subst hq; simp [dictSet, dictGet]
        · simp [dictSet, dictGet, hq, Ne.symm hq]
      · by_cases hq : k₀ = q
        · subst hq
          have hqk : ¬ (k₀ = k) := hk
          simp [dictSet, dictGet, hk, hqk]
        · simp [dictSet, dictGet, hk, hq, ih]

theorem dictUpdate_nil (d : Dict) : dictUpdate d [] = d := rfl

theorem dictUpdate_cons (d : Dict) (k : String) (v : Value) (rest : Dict) :
    dictUpdate d ((k, v) :: rest) = dictUpdate (dictSet d k v) rest := rfl

theorem dictGet_dictUpdate (d other : Dict) (k : String) :
    dictGet (dictUpdate d other) k =
      match dictGetLast other k with
      | some w => some w
      | none => dictGet d k := by
  induction other generalizing d with
  | nil => rfl
  | cons p rest ih =>
      obtain ⟨k₀, v₀⟩ := p
      rw [dictUpdate_cons, ih]
      cases h : dictGetLast rest k with
      | some w => simp [dictGetLast, h]
      | none =>
          simp only [dictGetLast, h, dictGet_dictSet]
          by_cases hk : k = k₀
          · subst hk; simp
          · simp [hk, Ne.symm hk]

theorem dictGetLast_eq_none (d : Dict) (k : String) (h : k ∉ dictKeys d) :
    dictGetLast d k = none := by
  induction d with
  | nil => rfl
  | cons p rest ih =>
      obtain ⟨k₀, v₀⟩ := p
      simp only [dictKeys, List.map_cons, List.mem_cons] at h
      push_neg at h
      simp [dictGetLast, ih (by simpa [dictKeys] using h.2), Ne.symm h.1]

theorem dictGetLast_of_nodup (d : Dict) (k : String)
    (h : (dictKeys d).Nodup) : dictGetLast d k = dictGet d k := by
  induction d with
  | nil => rfl
  | cons p rest ih =>
      obtain ⟨k₀, v₀⟩ := p
      simp only [dictKeys, List.map_cons, List.nodup_cons] at h
      by_cases hk : k₀ = k
      · subst hk
        have : dictGetLast rest k₀ = none :=
          dictGetLast_eq_none rest k₀ (by simpa [dictKeys] using h.1)
        simp [dictGetLast, dictGet, this]
      · simp [dictGetLast, dictGet, hk, ih h.2]
        cases dictGet rest k <;> simp

/-- Merging query-string parameters over the body and keyword parameters over
both resolves each key from the latest source defining it. -/
theorem dictGet_merge_precedence (body qs kwargs : Dict) (k : String)
    (hq : (dictKeys qs).Nodup) (hk : (dictKeys kwargs).Nodup) :
    dictGet (dictUpdate (dictUpdate body qs) kwargs) k =
      match dictGet kwargs k with
      | some w => some w
      | none =>
          match dictGet qs k with
          | some w => some w
          | none => dictGet body k := by
  rw [dictGet_dictUpdate, dictGetLast_of_nodup kwargs k hk]
  cases dictGet kwargs k with
  | some w => rfl
  | none =>
      simp only
      rw [dictGet_dictUpdate, dictGetLast_of_nodup qs k hq]

/-! ## Concrete fixtures used by witnesses -/

/-- A schema that accepts any raw map unchanged and serializes the identity. -/
def echoSchema : Schema :=
  { load := fun raw => Except.ok raw, dump := fun v => v }

/-- A method carrying `echoSchema` that returns its parameters as an object. -/
def okMethod : InterfaceMethod :=
  { schemaAttr := some echoSchema, run := fun params => Except.ok (.obj params) }

/-- An interface exposing a single schema-bearing method. -/
def sampleIface : Interface := { methods := [("get_ursulas", okMethod)] }

/-! ## Claim theorems -/

/-- C1: for every web request to a registered action, the raw parameter map
passed to validation is built from the parsed JSON body (empty map if the body
is empty), then the query-string parameters overwrite same-named body fields,
then the transport-injected keyword parameters overwrite both;
`normalizedRequestBody` is exactly what `handleRequest` hands to
`_perform_action`, whose `serializer.load` receives it.  In particular, with
body `{"a":1}`, query string `?a=2` and injected keyword `a=3`, the resolved
value of `a` is `3`. -/
theorem c1_request_normalization
    (body qs kwargs : Dict) (k : String)
    (hq : (dictKeys qs).Nodup) (hk : (dictKeys kwargs).Nodup) :
    normalizedRequestBody ⟨some (.ok body), some qs⟩ kwargs =
        Except.ok (dictUpdate (dictUpdate body qs) kwargs)
    ∧ normalizedRequestBody ⟨none, some qs⟩ kwargs =
        Except.ok (dictUpdate (dictUpdate [] qs) kwargs)
    ∧ dictGet (dictUpdate (dictUpdate body qs) kwargs) k =
        (match dictGet kwargs k with
         | some w => some w
         | none =>
             match dictGet qs k with
             | some w => some w
             | none => dictGet body k)
    ∧ dictGet (dictUpdate (dictUpdate [("a", .num 1)] [("a", .num 2)])
          [("a", .num 3)]) "a" = some (.num 3) :=
  ⟨rfl, rfl, dictGet_merge_precedence body qs kwargs k hq hk, rfl⟩

/-- Witness for C1 at body `{"a":1}`, query `{"a":2}`, keywords `{"a":3}`. -/
theorem c1_request_normalization_witness :
    ((dictKeys [("a", (Value.num 2))]).Nodup
      ∧ (dictKeys [("a", (Value.num 3))]).Nodup)
    ∧ dictGet (dictUpdate (dictUpdate [("a", Value.num 1)] [("a", Value.num 2)])
          [("a", Value.num 3)]) "a" = some (.num 3) :=
  ⟨⟨by decide, by decide⟩,
   (c1_request_normalization [("a", .num 1)] [("a", .num 2)] [("a", .num 3)] "a"
      (by decide) (by decide)).2.2.2⟩

/-- C2: on a successfully validated request the pipeline invokes the handler
with exactly `schema.load(raw)` and returns `schema.dump` of the handler's
output; when validation fails the pipeline's result is the validation error
itself, for any handler behavior (the handler is never invoked before
validation succeeds); and when the handler raises, no serialization happens —
the error propagates. -/
theorem c2_dispatch_pipeline (iface : Interface) (name : String)
    (m : InterfaceMethod) (sch : Schema) (raw : Dict)
    (hm : getMethod iface name = some m) (hs : m.schemaAttr = some sch) :
    (∀ typed, sch.load raw = .ok typed →
        performAction iface name (some raw) = (m.run typed).map sch.dump)
    ∧ (∀ e, sch.load raw = .error e →
        performAction iface name (some raw) = .error e)
    ∧ (∀ typed e, sch.load raw = .ok typed → m.run typed = .error e →
        performAction iface name (some raw) = .error e) := by
  refine ⟨?_, ?_, ?_⟩
  · intro typed hload
    simp only [performAction, Option.getD, hm, hs, hload, Bind.bind, Except.bind]
    cases m.run typed <;> simp [Except.map]
  · intro e hload
    simp [performAction, hm, hs, hload, Bind.bind, Except.bind]
  · intro typed e hload hrun
    simp [performAction, hm, hs, hload, hrun, Bind.bind, Except.bind]

/-- Witness for C2: the sample action dispatched on `{"a": 1}`. -/
theorem c2_dispatch_pipeline_witness :
    performAction sampleIface "get_ursulas" (some [("a", .num 1)]) =
      ((okMethod.run [("a", .num 1)]).map echoSchema.dump) :=
  (c2_dispatch_pipeline sampleIface "get_ursulas" okMethod echoSchema
      [("a", .num 1)] rfl rfl).1 [("a", .num 1)] rfl

/-- C5: the CLI controller's `finally` block calls the implementer's
`disenchant` cleanup hook exactly once per action — the call counter advances
by exactly one both when the pipeline returns and when it raises, and the
pipeline's own outcome is passed through unchanged. -/
theorem c5_cli_cleanup_exactly_once (iface : Interface) (action : String)
    (request : Option Dict) (c : Nat) :
    (porterPerformAction iface action request c).2 = c + 1
    ∧ (∀ v, performAction iface action request = .ok v →
        porterPerformAction iface action request c = (.ok v, c + 1))
    ∧ (∀ e, performAction iface action request = .error e →
        porterPerformAction iface action request c = (.error e, c + 1)) := by
  refine ⟨?_, ?_, ?_⟩
  · unfold porterPerformAction
    cases performAction iface action request <;> rfl
  · intro v h; simp [porterPerformAction, h]
  · intro e h; simp [porterPerformAction, h]

/-- Witness for C5: one successful CLI action and one raising CLI action each
advance the cleanup counter by exactly one. -/
theorem c5_cli_cleanup_exactly_once_witness :
    porterPerformAction sampleIface "get_ursulas" (some []) 0 =
        (.ok (.obj []), 0 + 1)
    ∧ porterPerformAction sampleIface "missing_action" (some []) 5 =
        (.error (.attributeError "NoneType object has no attribute _schema"),
          5 + 1) :=
  ⟨(c5_cli_cleanup_exactly_once sampleIface "get_ursulas" (some []) 0).2.1
      (.obj []) rfl,
   (c5_cli_cleanup_exactly_once sampleIface "missing_action" (some []) 5).2.2
      (.attributeError "NoneType object has no attribute _schema") rfl⟩

/-- A method whose handler raises a `WorkerPoolException` with two recorded
failures, in mapping order `x` then `y`. -/
def wpMethod : InterfaceMethod :=
  { schemaAttr := some echoSchema,
    run := fun _ =>
      Except.error (.workerPoolException "2 failures"
        [(.str "x", "err1"), (.str "y", "err2")]) }

/-- An interface exposing the aggregated-failure-raising method. -/
def wpIface : Interface := { methods := [("retrieve_cfrags", wpMethod)] }

/-- A method whose handler raises a `WorkerPoolException` with an empty
failures mapping. -/
def emptyWpMethod : InterfaceMethod :=
  { schemaAttr := some echoSchema,
    run := fun _ => Except.error (.workerPoolException "boom" []) }

/-- An interface exposing the empty-failures method. -/
def emptyWpIface : Interface := { methods := [("retrieve_cfrags", emptyWpMethod)] }

/-- C3: a handler raising an aggregated partial-failure error with failures
`{"x": err1, "y": err2}` under `crash_on_error = false` yields a 404 response
whose body is `failure_message` (the `str` of the exception) plus a `failures`
list of exactly the two entries `{value: "x", error: str(err1)}` and
`{value: "y", error: str(err2)}`, in mapping order. -/
theorem c3_aggregated_failure_404 (iface : Interface) (name : String)
    (m : InterfaceMethod) (sch : Schema) (req : ControlRequest) (kwargs : Dict)
    (raw typed : Dict) (msg e1 e2 : String)
    (hnorm : normalizedRequestBody req kwargs = .ok raw)
    (hreg : ((getInterfaces iface).all fun p => p.1 ≠ name) = false)
    (hm : getMethod iface name = some m)
    (hs : m.schemaAttr = some sch)
    (hload : sch.load raw = .ok typed)
    (hrun : m.run typed =
      .error (.workerPoolException msg [(.str "x", e1), (.str "y", e2)])) :
    handleRequest ⟨iface, false⟩ name req kwargs =
      .response 404 (.obj [("failure_message", .str msg),
        ("failures", .list
          [.obj [("value", .str "x"), ("error", .str e1)],
           .obj [("value", .str "y"), ("error", .str e2)]])]) := by
  have hperf : performAction iface name (some raw) =
      .error (.workerPoolException msg [(.str "x", e1), (.str "y", e2)]) :=
    (c2_dispatch_pipeline iface name m sch raw hm hs).2.2 typed _ hload hrun
  simp only [handleRequest, webTryBlock, hnorm, hperf, Bind.bind, Except.bind]
  simp only [ne_eq] at hreg
  rw [hreg]
  simp [is400Exception, json_response_from_worker_pool_exception]

/-- Witness for C3: the concrete aggregated-failure action. -/
theorem c3_aggregated_failure_404_witness :
    handleRequest ⟨wpIface, false⟩ "retrieve_cfrags" ⟨none, none⟩ [] =
      .response 404 (.obj [("failure_message", .str "2 failures"),
        ("failures", .list
          [.obj [("value", .str "x"), ("error", .str "err1")],
           .obj [("value", .str "y"), ("error", .str "err2")]])]) :=
  c3_aggregated_failure_404 wpIface "retrieve_cfrags" wpMethod echoSchema
    ⟨none, none⟩ [] [] [] "2 failures" "err1" "err2" rfl rfl rfl rfl rfl rfl

/-- C4: `crash_on_error` only affects the aggregated-failure (404) and
generic unhandled-error (500) branches — an exception from the `try` block in
the `_400_exceptions` tuple is converted to a 400 response under either flag
value, while a non-400 exception is re-raised when the flag is set and
otherwise converted to a 404 response (aggregated partial failure) or a 500
response (anything else). -/
theorem c4_crash_on_error_scope (iface : Interface) (name : String)
    (req : ControlRequest) (kwargs : Dict) (e : PyError)
    (he : webTryBlock iface name req kwargs = .error e) :
    (is400Exception e = true → ∀ crash : Bool,
        handleRequest ⟨iface, crash⟩ name req kwargs =
          .response 400 (errorBody e))
    ∧ (is400Exception e = false →
        handleRequest ⟨iface, true⟩ name req kwargs = .raised e
        ∧ handleRequest ⟨iface, false⟩ name req kwargs =
            match e with
            | .workerPoolException msg failures =>
                .response 404 (json_response_from_worker_pool_exception msg failures)
            | e₀ => .response 500 (errorBody e₀)) := by
  constructor
  · intro h400 crash
    simp [handleRequest, he, h400]
  · intro h400
    constructor
    · cases e <;> simp_all [handleRequest, is400Exception]
    · cases e <;> simp_all [handleRequest, is400Exception]

/-- Witness for C4: a malformed-JSON request is converted to a 400 response
with `crash_on_error` unset. -/
theorem c4_crash_on_error_scope_witness :
    handleRequest ⟨sampleIface, false⟩ "get_ursulas"
        ⟨some (.error "Expecting value"), none⟩ [] =
      .response 400 (errorBody (.jsonDecodeError "Expecting value")) :=
  ((c4_crash_on_error_scope sampleIface "get_ursulas"
      ⟨some (.error "Expecting value"), none⟩ []
      (.jsonDecodeError "Expecting value") rfl).1 rfl) false

/-- C10: a handler raising an aggregated partial-failure error with an empty
failures mapping, under `crash_on_error = false`, yields a 404 response whose
body holds only `failure_message` — `json_response_from_worker_pool_exception`
skips the `failures` key entirely when the mapping is empty. -/
theorem c10_empty_failures_omits_key (iface : Interface) (name : String)
    (req : ControlRequest) (kwargs : Dict) (msg : String)
    (he : webTryBlock iface name req kwargs =
      .error (.workerPoolException msg [])) :
    json_response_from_worker_pool_exception msg [] =
        .obj [("failure_message", .str msg)]
    ∧ handleRequest ⟨iface, false⟩ name req kwargs =
        .response 404 (.obj [("failure_message", .str msg)]) := by
  constructor
  · rfl
  · simp [handleRequest, he, is400Exception,
      json_response_from_worker_pool_exception]

/-- Witness for C10: the concrete empty-failures action. -/
theorem c10_empty_failures_omits_key_witness :
    handleRequest ⟨emptyWpIface, false⟩ "retrieve_cfrags" ⟨none, none⟩ [] =
      .response 404 (.obj [("failure_message", .str "boom")]) :=
  (c10_empty_failures_omits_key emptyWpIface "retrieve_cfrags" ⟨none, none⟩ []
    "boom" rfl).2

/-! ## Helper lemmas about attribute binding and the try block -/

theorem setAttr_mem (b : List String) (n q : String) :
    q ∈ setAttr b n ↔ q ∈ b ∨ q = n := by
  unfold setAttr
  split
  · constructor
    · exact Or.inl
    · rintro (h | rfl)
      · exact h
      · assumption
  · simp [List.mem_append]

theorem setAttr_of_mem (b : List String) (n : String) (h : n ∈ b) :
    setAttr b n = b := by
  simp [setAttr, h]

theorem setAttr_idem (b : List String) (n : String) :
    setAttr (setAttr b n) n = setAttr b n :=
  setAttr_of_mem _ _ ((setAttr_mem b n n).mpr (Or.inr rfl))

theorem foldl_setAttr_mem (l : List (String × InterfaceMethod))
    (b : List String) (q : String) :
    q ∈ l.foldl (fun acc p => setAttr acc p.1) b ↔
      q ∈ b ∨ q ∈ l.map Prod.fst := by
  induction l generalizing b with
  | nil => simp
  | cons p rest ih =>
      rw [List.foldl_cons, ih, setAttr_mem]
      simp [or_assoc]

theorem foldl_setAttr_double (l : List (String × InterfaceMethod))
    (b : List String) :
    l.foldl (fun acc p => setAttr (setAttr acc p.1) p.1) b =
      l.foldl (fun acc p => setAttr acc p.1) b := by
  induction l generalizing b with
  | nil => rfl
  | cons p rest ih => rw [List.foldl_cons, List.foldl_cons, setAttr_idem, ih]

theorem foldl_setAttr_of_subset (l : List (String × InterfaceMethod))
    (b : List String) (h : ∀ p ∈ l, p.1 ∈ b) :
    l.foldl (fun acc p => setAttr acc p.1) b = b := by
  induction l with
  | nil => rfl
  | cons p rest ih =>
      rw [List.foldl_cons, setAttr_of_mem _ _ (h p (by simp))]
      exact ih fun q hq => h q (by simp [hq])

theorem webTryBlock_registered (iface : Interface) (name : String)
    (req : ControlRequest) (kwargs raw : Dict)
    (hnorm : normalizedRequestBody req kwargs = .ok raw)
    (hreg : ((getInterfaces iface).all fun p => p.1 ≠ name) = false) :
    webTryBlock iface name req kwargs = performAction iface name (some raw) := by
  simp only [webTryBlock, hnorm, Bind.bind, Except.bind]
  simp only [ne_eq] at hreg
  rw [hreg]
  simp

theorem webTryBlock_unregistered (iface : Interface) (name : String)
    (req : ControlRequest) (kwargs raw : Dict)
    (hnorm : normalizedRequestBody req kwargs = .ok raw)
    (hreg : ((getInterfaces iface).all fun p => p.1 ≠ name) = true) :
    webTryBlock iface name req kwargs =
      .error (.methodNotFound ("No method called " ++ name)) := by
  simp only [webTryBlock, hnorm, Bind.bind, Except.bind]
  simp only [ne_eq] at hreg
  rw [hreg]
  simp

theorem webTryBlock_badjson (iface : Interface) (name msg : String)
    (args : Option Dict) (kwargs : Dict) :
    webTryBlock iface name ⟨some (.error msg), args⟩ kwargs =
      .error (.jsonDecodeError msg) := by
  simp [webTryBlock, normalizedRequestBody, Bind.bind, Except.bind]

/-- C8: the attribute set bound by `InterfaceControlServer.__init__` exposes
exactly the interface methods carrying a `_schema` attribute (no other name is
bound); the duplicated `set_method` call in the constructor loop makes no
difference (binding is idempotent); and re-running the binding pass over an
already-constructed server re-derives the same name set without changing any
entry. -/
theorem c8_registry_exact_and_idempotent (iface : Interface) :
    (∀ name : String,
        name ∈ serverInit iface ↔
          ∃ m, (name, m) ∈ iface.methods ∧ m.schemaAttr.isSome = true)
    ∧ serverInit iface = bindInterfaceMethods [] iface
    ∧ bindInterfaceMethods (serverInit iface) iface = serverInit iface := by
  have hdouble : serverInit iface = bindInterfaceMethods [] iface :=
    foldl_setAttr_double (getInterfaces iface) []
  have hmem : ∀ name : String,
      name ∈ serverInit iface ↔
        ∃ m, (name, m) ∈ iface.methods ∧ m.schemaAttr.isSome = true := by
    intro name
    rw [hdouble]
    unfold bindInterfaceMethods
    rw [foldl_setAttr_mem]
    simp only [List.not_mem_nil, false_or, List.mem_map, getInterfaces,
      List.mem_filter]
    constructor
    · rintro ⟨⟨n, m⟩, ⟨hmem₀, hschema⟩, hn⟩
      obtain rfl : n = name := hn
      exact ⟨m, hmem₀, hschema⟩
    · rintro ⟨m, hmem₀, hschema⟩
      exact ⟨(name, m), ⟨hmem₀, hschema⟩, rfl⟩
  refine ⟨hmem, hdouble, ?_⟩
  unfold bindInterfaceMethods
  apply foldl_setAttr_of_subset
  intro p hp
  have hp₂ : p ∈ iface.methods ∧ p.2.schemaAttr.isSome = true := by
    simpa [getInterfaces, List.mem_filter] using hp
  refine (hmem p.1).mpr ⟨p.2, ?_, hp₂.2⟩
  have heta : (p.1, p.2) = p := rfl
  rw [heta]
  exact hp₂.1

/-- Witness for C8: the sample interface binds its schema-bearing method. -/
theorem c8_registry_exact_and_idempotent_witness :
    "get_ursulas" ∈ serverInit sampleIface :=
  ((c8_registry_exact_and_idempotent sampleIface).1 "get_ursulas").mpr
    ⟨okMethod, by simp [sampleIface], rfl⟩

/-- C6 counterexample: a request naming an unregistered action whose body is
malformed JSON gets status 400, but the `JSONDecodeError` is raised before the
registry membership check, so the failure message is the JSON parser's, which
does not mention (let alone identify) the unknown action name. -/
theorem c6_counterexample :
    handleRequest ⟨sampleIface, false⟩ "ghost_action"
        ⟨some (.error "Expecting value"), none⟩ [] =
      .response 400 (errorBody (.jsonDecodeError "Expecting value"))
    ∧ ¬ ("ghost_action".data <:+:
          (errString (.jsonDecodeError "Expecting value")).data) :=
  ⟨rfl, by decide⟩

/-- C6 (amended): for every web request naming an action absent from the
registry whose body is empty or parses as JSON, the response is 400 with the
failure message `No method called <name>` identifying the unknown name — the
not-found condition is raised before any schema validation (the conclusion is
the same for every schema and handler on the interface and for either
`crash_on_error` value), though after JSON body parsing, whose errors take
precedence. -/
theorem c6_unknown_action_400 (iface : Interface) (name : String)
    (req : ControlRequest) (kwargs : Dict) (crash : Bool)
    (hreg : ((getInterfaces iface).all fun p => p.1 ≠ name) = true)
    (hdata : req.data = none ∨ ∃ d, req.data = some (.ok d)) :
    handleRequest ⟨iface, crash⟩ name req kwargs =
      .response 400 (errorBody (.methodNotFound ("No method called " ++ name))) := by
  obtain ⟨data, args⟩ := req
  have hnorm : ∃ raw, normalizedRequestBody ⟨data, args⟩ kwargs = .ok raw := by
    rcases hdata with h | ⟨d, h⟩ <;> simp only at h <;> subst h <;>
      cases args <;> exact ⟨_, rfl⟩
  obtain ⟨raw, hnorm⟩ := hnorm
  have htry := webTryBlock_unregistered iface name ⟨data, args⟩ kwargs raw hnorm hreg
  simp [handleRequest, htry, is400Exception]

/-- Witness for C6 (amended): an empty-body request for an unknown action. -/
theorem c6_unknown_action_400_witness :
    handleRequest ⟨sampleIface, true⟩ "ghost" ⟨none, none⟩ [] =
      .response 400 (errorBody (.methodNotFound ("No method called " ++ "ghost"))) :=
  c6_unknown_action_400 sampleIface "ghost" ⟨none, none⟩ [] true rfl (Or.inl rfl)

/-- The field layout of the `get_ursulas` action per its interface signature:
`quantity` required, the ursula filters optional. -/
def ursulasFieldSpec : FieldSpec :=
  { declared := ["quantity", "include_ursulas", "exclude_ursulas"],
    required := ["quantity"] }

/-- The spec-modelled `AliceGetUrsulas` schema. -/
def ursulasSchema : Schema :=
  { load := specSchemaLoad ursulasFieldSpec, dump := fun v => v }

/-- A `get_ursulas`-shaped method behind the spec-modelled schema. -/
def ursulasMethod : InterfaceMethod :=
  { schemaAttr := some ursulasSchema,
    run := fun params => Except.ok (.obj [("ursulas", .obj params)]) }

/-- An interface exposing the `get_ursulas`-shaped action. -/
def porterIface : Interface := { methods := [("get_ursulas", ursulasMethod)] }

/-- C7 counterexample: a request with an empty body but a query string that
supplies the schema's required field validates and succeeds with status 200 —
so an empty body does not by itself force a 400 (matching the repository's own
web test, which drives `get_ursulas` through the query string alone). -/
theorem c7_counterexample :
    handleRequest ⟨porterIface, false⟩ "get_ursulas"
        ⟨none, some [("quantity", .str "4")]⟩ [] =
      .response 200
        (respondBody (.obj [("ursulas", .obj [("quantity", .str "4")])])) := rfl

/-- C7 (amended): for a registered action whose schema declares at least one
required field and rejects undeclared fields, (1) a request with empty body
and no query-string or injected parameters is rejected with 400 (missing
required field), (2) a body that is not valid JSON yields 400, and (3) any
request whose merged parameter map contains an undeclared field yields 400 —
in every case for either `crash_on_error` value, never 500 and never silent
acceptance. -/
theorem c7_input_errors_400 (iface : Interface) (name : String)
    (m : InterfaceMethod) (fs : FieldSpec) (dump : Value → Value)
    (hm : getMethod iface name = some m)
    (hs : m.schemaAttr = some ⟨specSchemaLoad fs, dump⟩)
    (hreg : ((getInterfaces iface).all fun p => p.1 ≠ name) = false)
    (hrequired : fs.required ≠ []) :
    (∀ crash : Bool,
        handleRequest ⟨iface, crash⟩ name ⟨none, none⟩ [] =
          .response 400 (errorBody (.validationError "missing required field")))
    ∧ (∀ (msg : String) (args : Option Dict) (kwargs : Dict) (crash : Bool),
        handleRequest ⟨iface, crash⟩ name ⟨some (.error msg), args⟩ kwargs =
          .response 400 (errorBody (.jsonDecodeError msg)))
    ∧ (∀ (req : ControlRequest) (kwargs raw : Dict) (crash : Bool),
        normalizedRequestBody req kwargs = .ok raw →
        (raw.all fun p => p.1 ∈ fs.declared) = false →
        ∃ msg, handleRequest ⟨iface, crash⟩ name req kwargs =
          .response 400 (errorBody (.validationError msg))) := by
  refine ⟨?_, ?_, ?_⟩
  · intro crash
    have hload : specSchemaLoad fs [] =
        .error (.validationError "missing required field") := by
      unfold specSchemaLoad
      have hall : (fs.required.all fun f => (dictGet ([] : Dict) f).isSome) = false := by
        cases hr : fs.required with
        | nil => exact absurd hr hrequired
        | cons f rest => simp [dictGet]
      rw [hall]
      simp
    have hperf : performAction iface name (some []) =
        .error (.validationError "missing required field") :=
      (c2_dispatch_pipeline iface name m ⟨specSchemaLoad fs, dump⟩ [] hm hs).2.1
        _ hload
    have htry := webTryBlock_registered iface name ⟨none, none⟩ [] [] rfl hreg
    rw [hperf] at htry
    simp [handleRequest, htry, is400Exception]
  · intro msg args kwargs crash
    have htry := webTryBlock_badjson iface name msg args kwargs
    simp [handleRequest, htry, is400Exception]
  · intro req kwargs raw crash hnorm hextra
    have htry := webTryBlock_registered iface name req kwargs raw hnorm hreg
    cases hr : (fs.required.all fun f => (dictGet raw f).isSome) with
    | false =>
        refine ⟨"missing required field", ?_⟩
        have hload : specSchemaLoad fs raw =
            .error (.validationError "missing required field") := by
          unfold specSchemaLoad
          rw [hr]
          simp
        have hperf := (c2_dispatch_pipeline iface name m
          ⟨specSchemaLoad fs, dump⟩ raw hm hs).2.1 _ hload
        rw [hperf] at htry
        simp [handleRequest, htry, is400Exception]
    | true =>
        refine ⟨"unknown field", ?_⟩
        have hload : specSchemaLoad fs raw =
            .error (.validationError "unknown field") := by
          unfold specSchemaLoad
          rw [hr, hextra]
          simp
        have hperf := (c2_dispatch_pipeline iface name m
          ⟨specSchemaLoad fs, dump⟩ raw hm hs).2.1 _ hload
        rw [hperf] at htry
        simp [handleRequest, htry, is400Exception]

/-- Witness for C7 (amended): a bare empty-body request for the
`get_ursulas`-shaped action is rejected with 400. -/
theorem c7_input_errors_400_witness :
    handleRequest ⟨porterIface, false⟩ "get_ursulas" ⟨none, none⟩ [] =
      .response 400 (errorBody (.validationError "missing required field")) :=
  (c7_input_errors_400 porterIface "get_ursulas" ursulasMethod ursulasFieldSpec
    (fun v => v) rfl rfl rfl (by decide)).1 false

/-- C9 counterexample: a CLI invocation with an action name absent from the
registry does not produce an error result — `_perform_action` resolves the
method with `getattr(..., None)` and the subsequent `._schema` access raises
`AttributeError`, which nothing in the CLI transport catches, so the exception
propagates (the `finally` cleanup still runs first). -/
theorem c9_counterexample :
    cliHandleRequest sampleIface "no_such_action" none 0 =
      (.error (.attributeError "NoneType object has no attribute _schema"), 1)
    ∧ ∀ v : Value,
        (cliHandleRequest sampleIface "no_such_action" none 0).1 ≠ Except.ok v := by
  refine ⟨rfl, ?_⟩
  intro v h
  have h1 : (cliHandleRequest sampleIface "no_such_action" none 0).1 =
      Except.error (.attributeError "NoneType object has no attribute _schema") := rfl
  rw [h1] at h
  exact Except.noConfusion h

/-- C9 (amended): for every CLI invocation with an action name not present in
the registry, the dispatch raises an `AttributeError` (from reading `_schema`
off the missing — or schema-less — method) that propagates out of the CLI
transport unhandled; the cleanup hook still fires exactly once before the
exception escapes. -/
theorem c9_unknown_cli_action_raises (iface : Interface) (name : String)
    (request : Option Dict) (c : Nat)
    (hreg : ((getInterfaces iface).all fun p => p.1 ≠ name) = true) :
    ∃ msg, cliHandleRequest iface name request c =
      (.error (.attributeError msg), c + 1) := by
  cases hm : getMethod iface name with
  | none =>
      refine ⟨"NoneType object has no attribute _schema", ?_⟩
      simp [cliHandleRequest, porterPerformAction, performAction, hm]
  | some m =>
      have hnos : m.schemaAttr = none := by
        cases hsa : m.schemaAttr with
        | none => rfl
        | some sch =>
            exfalso
            unfold getMethod at hm
            cases hf : iface.methods.find? (fun p => p.1 = name) with
            | none => rw [hf] at hm; simp at hm
            | some q =>
                rw [hf] at hm
                simp only [Option.map] at hm
                injection hm with hm
                have hqname : q.1 = name := by
                  have := List.find?_some hf
                  simpa using this
                have hqmem : q ∈ iface.methods := List.mem_of_find?_eq_some hf
                have hqfilter : q ∈ getInterfaces iface := by
                  simp [getInterfaces, List.mem_filter, hqmem, hm, hsa]
                have hne := (List.all_eq_true.mp hreg) q hqfilter
                simp [hqname] at hne
      refine ⟨"method object has no attribute _schema", ?_⟩
      simp [cliHandleRequest, porterPerformAction, performAction, hm, hnos]

/-- Witness for C9 (amended): a concrete unknown CLI action raises and the
cleanup counter still advances once. -/
theorem c9_unknown_cli_action_raises_witness :
    ∃ msg, cliHandleRequest sampleIface "not_an_action" none 3 =
      (.error (.attributeError msg), 3 + 1) :=
  c9_unknown_cli_action_raises sampleIface "not_an_action" none 3 rfl

end Porter
